import Mathlib

/-
Verification development for the pymc continuous-distributions module
(src/pymc/distributions/continuous.py).

The numeric domain of the code is IEEE-754 floating point as exposed by
numpy/theano: every scalar is a finite real, plus infinity, minus infinity,
or NaN, and the elementary operations follow the IEEE special-value rules
(comparisons with NaN are false, log of a negative number is NaN, log 0 is
minus infinity, 0/0 is NaN, and so on).  The type R below is that domain with
the finite part taken to be the exact reals, and the operations Radd, Rmul,
Rdiv, log, ... are the elementwise numpy/theano scalar operations used in the
source.  The helpers of dist_math (bound, logpow, and the reexported numpy
primitives) are not part of this repository snapshot, so they are modelled
from the specification; everything else is translated line by line from
continuous.py.
-/

namespace PyMC

noncomputable section

/-- IEEE-754 style scalar of the numpy/theano stack: a finite real, plus
infinity, minus infinity, or NaN. -/
inductive R where
  | fin (x : ℝ)
  | pinf
  | ninf
  | nan

open R

/-- Negation on R (IEEE special values included). -/
def Rneg : R → R
  | fin x => fin (-x)
  | pinf => ninf
  | ninf => pinf
  | nan => nan

/-- Addition on R: NaN propagates, and inf plus minus inf is NaN. -/
def Radd : R → R → R
  | nan, _ => nan
  | _, nan => nan
  | fin x, fin y => fin (x + y)
  | fin _, pinf => pinf
  | fin _, ninf => ninf
  | pinf, fin _ => pinf
  | ninf, fin _ => ninf
  | pinf, pinf => pinf
  | ninf, ninf => ninf
  | pinf, ninf => nan
  | ninf, pinf => nan

/-- Subtraction on R, as addition of the negation (exactly IEEE). -/
def Rsub (a b : R) : R := Radd a (Rneg b)

/-- Multiplication on R: NaN propagates, zero times an infinity is NaN,
and infinities multiply by sign. -/
def Rmul : R → R → R
  | nan, _ => nan
  | _, nan => nan
  | fin x, fin y => fin (x * y)
  | fin x, pinf => if 0 < x then pinf else if x < 0 then ninf else nan
  | fin x, ninf => if 0 < x then ninf else if x < 0 then pinf else nan
  | pinf, fin y => if 0 < y then pinf else if y < 0 then ninf else nan
  | ninf, fin y => if 0 < y then ninf else if y < 0 then pinf else nan
  | pinf, pinf => pinf
  | pinf, ninf => ninf
  | ninf, pinf => ninf
  | ninf, ninf => pinf

/-- Division on R, with the numpy conventions: x/0 is a signed infinity for
finite nonzero x, 0/0 is NaN, a finite number over an infinity is 0, and
inf/inf is NaN. -/
def Rdiv : R → R → R
  | nan, _ => nan
  | _, nan => nan
  | fin x, fin y =>
      if y = 0 then (if x = 0 then nan else if 0 < x then pinf else ninf)
      else fin (x / y)
  | fin _, pinf => fin 0
  | fin _, ninf => fin 0
  | pinf, fin y => if 0 ≤ y then pinf else ninf
  | ninf, fin y => if 0 ≤ y then ninf else pinf
  | pinf, pinf => nan
  | pinf, ninf => nan
  | ninf, pinf => nan
  | ninf, ninf => nan

/-- Absolute value on R. -/
def Rabs : R → R
  | fin x => fin |x|
  | pinf => pinf
  | ninf => pinf
  | nan => nan

/-- The numpy maximum of two scalars (NaN propagates). -/
def maximum : R → R → R
  | nan, _ => nan
  | _, nan => nan
  | fin x, fin y => fin (max x y)
  | pinf, _ => pinf
  | _, pinf => pinf
  | ninf, y => y
  | x, ninf => x

/-- IEEE comparison: less-or-equal, false whenever either side is NaN. -/
def Rle : R → R → Bool
  | nan, _ => false
  | _, nan => false
  | fin x, fin y => decide (x ≤ y)
  | fin _, pinf => true
  | fin _, ninf => false
  | pinf, pinf => true
  | pinf, fin _ => false
  | pinf, ninf => false
  | ninf, _ => true

/-- IEEE comparison: strictly-less, false whenever either side is NaN. -/
def Rlt : R → R → Bool
  | nan, _ => false
  | _, nan => false
  | fin x, fin y => decide (x < y)
  | fin _, pinf => true
  | fin _, ninf => false
  | pinf, _ => false
  | ninf, ninf => false
  | ninf, _ => true

/-- IEEE comparison: strictly-greater. -/
def Rgt (a b : R) : Bool := Rlt b a

/-- IEEE comparison: greater-or-equal. -/
def Rge (a b : R) : Bool := Rle b a

/-- Squaring, the Python power x ** 2. -/
def Rsq (a : R) : R := Rmul a a

/-- The Python power s ** -2, with the numpy convention 0 ** -2 = inf. -/
def powNeg2 (s : R) : R := Rdiv (fin 1) (Rsq s)

/-- Modelled from the spec: dist_math reexports the elementwise natural log,
a trusted external numeric primitive; log 0 is minus infinity and log of a
negative number is NaN. -/
def log : R → R
  | fin x => if 0 < x then fin (Real.log x) else if x = 0 then ninf else nan
  | pinf => pinf
  | ninf => nan
  | nan => nan

/-- Modelled from the spec: dist_math reexports the elementwise exponential,
a trusted external numeric primitive. -/
def exp : R → R
  | fin x => fin (Real.exp x)
  | pinf => pinf
  | ninf => fin 0
  | nan => nan

/-- Modelled from the spec: gammaln (log of the Gamma function) is a trusted
external numeric primitive; on finite arguments it is modelled as the log of
the absolute value of the Gamma function.  No theorem below depends on its
finite values. -/
def gammaln : R → R
  | fin x => fin (Real.log |Real.Gamma x|)
  | pinf => pinf
  | ninf => nan
  | nan => nan

/-- The constant pi reexported by dist_math. -/
def pi : R := fin Real.pi

/-- The constant inf (numpy positive infinity). -/
def inf : R := pinf

/-- Modelled from the spec: dist_math logpow, which the log-density table of
the spec renders for Beta and Gamma as m times log x. -/
def logpow (x m : R) : R := Rmul m (log x)

/-- Modelled from the spec: numpy zeros_like at a scalar value is 0. -/
def zeros_like (_ : R) : R := fin 0

/-- Modelled from the spec: theano switch selects its second argument where
the condition is nonzero and its third argument where it is zero. -/
def switch (c : Bool) (a b : R) : R := if c then a else b

/-- Modelled from the spec: dist_math bound at one element of the broadcast
shape.  Where every constraint holds the result is the expression; where any
constraint fails the result is negative infinity; with no constraints the
result is the expression unconditionally. -/
def boundS (expr : R) (cs : List Bool) : R :=
  if cs.all (fun c => c) then expr else ninf

/-- Modelled from the spec: dist_math bound, elementwise over the broadcast
shape.  An array is modelled as a family of scalars indexed by position, and
a broadcast scalar as a constant family. -/
def bound (expr : Nat → R) (constraints : List (Nat → Bool)) : Nat → R :=
  fun i => boundS (expr i) (constraints.map (fun c => c i))

/-- Lookup in a string-keyed dictionary: Python dict.get, also used below for
attribute-dictionary lookups. -/
def dictGet : List (String × R) → String → Option R
  | [], _ => none
  | (k1, v) :: rest, k => if k1 = k then some v else dictGet rest k

/-- Setting one key in a string-keyed dictionary, replacing an existing
binding in place. -/
def dictSet : List (String × R) → String → R → List (String × R)
  | [], k, v => [(k, v)]
  | (k1, v1) :: rest, k, v =>
      if k1 = k then (k, v) :: rest else (k1, v1) :: dictSet rest k v

/-- Python dict.update, applied binding by binding. -/
def dictUpdate (d : List (String × R)) (kvs : List (String × R)) : List (String × R) :=
  kvs.foldl (fun acc kv => dictSet acc kv.1 kv.2) d

/-- A fixed-state mapping from variable names to values (the point argument
of draw_values and of the sampling operations). -/
abbrev Point := List (String × R)

/-- One parameter slot of draw_values: either a concrete value, or a
stochastic reference exposing a name and a sampling operation (in the source,
an object with a random attribute). -/
inductive Item where
  | conc (v : R)
  | stoch (name : String) (random : Option Point → R)

/-- Python truthiness of the looked-up optional value: None and 0.0 are
falsy; every other float (NaN and the infinities included) is truthy. -/
def falsy : Option R → Bool
  | none => true
  | some (fin x) => decide (x = 0)
  | some _ => false

/-- Resolution of one item by draw_values, from the source lambda: a concrete
item passes through unchanged; a stochastic item samples with point None when
no point is supplied, and otherwise evaluates
point.get(item.name) or item.random(point), where the Python or falls through
to sampling whenever the looked-up value is falsy, that is absent or zero. -/
def drawValue (item : Item) (point : Option Point) : R :=
  match item with
  | Item.conc v => v
  | Item.stoch name rnd =>
    match point with
    | none => rnd none
    | some p =>
      let looked := dictGet p name
      if falsy looked then rnd (some p)
      else
        match looked with
        | some v => v
        | none => rnd (some p)

/-- Resolution of a sequence of items by draw_values; the np.squeeze collapse
of singleton dimensions is not modelled, the per-item results are returned in
order. -/
def draw_values (params : List Item) (point : Option Point) : List R :=
  params.map (fun item => drawValue item point)

/-- Resolution of the two alternate precision parameterizations, from
get_tau in the source: neither gives 1, only sd gives sd ** -2, only tau
gives tau, and both raise a ValueError. -/
def get_tau (tau sd : Option R) : Except String R :=
  match tau with
  | none =>
    match sd with
    | none => Except.ok (fin 1)
    | some s => Except.ok (powNeg2 s)
  | some t =>
    match sd with
    | some _ => Except.error "Can\x27t pass both tau and sd"
    | none => Except.ok t

/-- The Uniform variant: stored parameters and statistics from its
constructor. -/
structure Uniform where
  lower : R
  upper : R
  mean : R
  median : R

/-- Constructor of Uniform (the classmethod dist of the external base applied
to this __init__). -/
def Uniform.dist (lower upper : R) : Uniform :=
  let mean := Rdiv (Radd upper lower) (fin 2)
  { lower := lower, upper := upper, mean := mean, median := mean }

/-- Uniform log-density from the source: bound(-log(upper - lower),
lower <= value, value <= upper). -/
def Uniform.logp (d : Uniform) (value : R) : R :=
  boundS (Rneg (log (Rsub d.upper d.lower)))
    [Rle d.lower value, Rle value d.upper]

/-- The Flat variant. -/
structure Flat where
  median : R

/-- Constructor of Flat. -/
def Flat.dist : Flat := { median := fin 0 }

/-- Flat log-density from the source: zeros_like(value). -/
def Flat.logp (_ : Flat) (value : R) : R := zeros_like value

/-- Flat sampling from the source: raise NotImplementedError unconditionally,
whatever the point argument. -/
def Flat.random (_ : Flat) (_ : Option Point) : Except String R :=
  Except.error "Cannot sample from Flat."

/-- The Normal variant: stored parameters and statistics from its
constructor. -/
structure Normal where
  mu : R
  tau : R
  mean : R
  median : R
  mode : R
  variance : R

/-- Constructor of Normal: resolves tau through get_tau (propagating its
ValueError) and stores the statistics. -/
def Normal.dist (mu : R) (tau sd : Option R) : Except String Normal :=
  match get_tau tau sd with
  | Except.error e => Except.error e
  | Except.ok t =>
      Except.ok { mu := mu, tau := t, mean := mu, median := mu, mode := mu,
                  variance := Rdiv (fin 1) t }

/-- Normal log-density from the source:
bound((-tau * (value - mu) ** 2 + log(tau / pi / 2.)) / 2., tau > 0). -/
def Normal.logp (d : Normal) (value : R) : R :=
  boundS
    (Rdiv (Radd (Rmul (Rneg d.tau) (Rsq (Rsub value d.mu)))
                (log (Rdiv (Rdiv d.tau pi) (fin 2)))) (fin 2))
    [Rgt d.tau (fin 0)]

/-- The Beta variant: stored parameters and statistics from its constructor.
It stores no mode. -/
structure Beta where
  alpha : R
  beta : R
  mean : R
  variance : R

/-- Constructor of Beta. -/
def Beta.dist (alpha beta : R) : Beta :=
  { alpha := alpha, beta := beta,
    mean := Rdiv alpha (Radd alpha beta),
    variance := Rdiv (Rmul alpha beta)
      (Rmul (Rsq (Radd alpha beta)) (Radd (Radd alpha beta) (fin 1))) }

/-- Beta log-density from the source, with the four constraints
0 <= value, value <= 1, alpha > 0, beta > 0. -/
def Beta.logp (d : Beta) (value : R) : R :=
  boundS
    (Radd
      (Radd (Rsub (Rsub (gammaln (Radd d.alpha d.beta)) (gammaln d.alpha))
                  (gammaln d.beta))
            (logpow value (Rsub d.alpha (fin 1))))
      (logpow (Rsub (fin 1) value) (Rsub d.beta (fin 1))))
    [Rle (fin 0) value, Rle value (fin 1), Rgt d.alpha (fin 0), Rgt d.beta (fin 0)]

/-- The Exponential variant: stored parameters and statistics from its
constructor. -/
structure Exponential where
  lam : R
  mean : R
  median : R
  mode : R
  variance : R

/-- Constructor of Exponential. -/
def Exponential.dist (lam : R) : Exponential :=
  let mean := Rdiv (fin 1) lam
  { lam := lam, mean := mean, median := Rmul mean (log (fin 2)), mode := fin 0,
    variance := powNeg2 lam }

/-- Exponential log-density from the source:
bound(log(lam) - lam * value, value > 0, lam > 0). -/
def Exponential.logp (d : Exponential) (value : R) : R :=
  boundS (Rsub (log d.lam) (Rmul d.lam value))
    [Rgt value (fin 0), Rgt d.lam (fin 0)]

/-- The Laplace variant: stored parameters and statistics from its
constructor. -/
structure Laplace where
  b : R
  mean : R
  median : R
  mode : R
  mu : R
  variance : R

/-- Constructor of Laplace. -/
def Laplace.dist (mu b : R) : Laplace :=
  { b := b, mean := mu, median := mu, mode := mu, mu := mu,
    variance := Rmul (fin 2) (Rsq b) }

/-- Laplace log-density from the source: -log(2 * b) - abs(value - mu) / b,
with no bound call and so no constraint at all. -/
def Laplace.logp (d : Laplace) (value : R) : R :=
  Rsub (Rneg (log (Rmul (fin 2) d.b))) (Rdiv (Rabs (Rsub value d.mu)) d.b)

/-- Laplace sampling as written in the source: it resolves mu and b through
draw_values and then evaluates runiform(-0.5, 0.5, size), where the name size
is not defined in any enclosing scope, so the call raises a NameError before
any draw is produced. -/
def Laplace.random (_ : Laplace) (_ : Option Point) : Except String R :=
  Except.error "NameError: name \x27size\x27 is not defined"

/-- The Lognormal variant: stored parameters and statistics from its
constructor. -/
structure Lognormal where
  mu : R
  tau : R
  mean : R
  median : R
  mode : R
  variance : R

/-- Constructor of Lognormal. -/
def Lognormal.dist (mu tau : R) : Lognormal :=
  { mu := mu, tau := tau,
    mean := exp (Radd mu (Rdiv (fin 1) (Rmul (fin 2) tau))),
    median := exp mu,
    mode := exp (Rsub mu (Rdiv (fin 1) tau)),
    variance := Rmul (Rsub (exp (Rdiv (fin 1) tau)) (fin 1))
      (exp (Radd (Rmul (fin 2) mu) (Rdiv (fin 1) tau))) }

/-- Lognormal log-density from the source:
bound(-0.5 * tau * (log(value) - mu) ** 2 + 0.5 * log(tau / (2 pi))
- log(value), tau > 0).  The support restriction value > 0 appears in no
constraint; it is implicit through log. -/
def Lognormal.logp (d : Lognormal) (value : R) : R :=
  boundS
    (Rsub
      (Radd (Rmul (Rmul (fin (-(1/2))) d.tau) (Rsq (Rsub (log value) d.mu)))
            (Rmul (fin (1/2)) (log (Rdiv d.tau (Rmul (fin 2) pi)))))
      (log value))
    [Rgt d.tau (fin 0)]

/-- The T (Student T) variant: stored parameters and statistics from its
constructor.  It stores nu, lam and mu, and no tau attribute. -/
structure T where
  nu : R
  lam : R
  mean : R
  median : R
  mode : R
  mu : R
  variance : R

/-- Constructor of T. -/
def T.dist (nu mu lam : R) : T :=
  { nu := nu, lam := lam, mean := mu, median := mu, mode := mu, mu := mu,
    variance := switch (Rgt nu (fin 2)) (Rdiv (Rdiv nu (Rsub nu (fin 2))) lam) inf }

/-- T log-density from the source, with the constraints lam > 0 and nu > 0. -/
def T.logp (d : T) (value : R) : R :=
  boundS
    (Rsub
      (Rsub
        (Radd (gammaln (Rdiv (Radd d.nu (fin 1)) (fin 2)))
              (Rmul (fin (1/2)) (log (Rdiv d.lam (Rmul d.nu pi)))))
        (gammaln (Rdiv d.nu (fin 2))))
      (Rmul (Rdiv (Radd d.nu (fin 1)) (fin 2))
            (log (Radd (fin 1) (Rdiv (Rmul d.lam (Rsq (Rsub value d.mu))) d.nu)))))
    [Rgt d.lam (fin 0), Rgt d.nu (fin 0)]

/-- T sampling as written in the source: the first statement reads self.tau,
an attribute no T instance defines, so the call raises an AttributeError
before any draw is produced. -/
def T.random (_ : T) (_ : Option Point) : Except String R :=
  Except.error "AttributeError: \x27T\x27 object has no attribute \x27tau\x27"

/-- The Cauchy variant: stored parameters and statistics from its
constructor. -/
structure Cauchy where
  median : R
  mode : R
  alpha : R
  beta : R

/-- Constructor of Cauchy. -/
def Cauchy.dist (alpha beta : R) : Cauchy :=
  { median := alpha, mode := alpha, alpha := alpha, beta := beta }

/-- Cauchy log-density from the source, with the constraint beta > 0. -/
def Cauchy.logp (d : Cauchy) (value : R) : R :=
  boundS
    (Rsub (Rsub (Rneg (log pi)) (log d.beta))
          (log (Radd (fin 1) (Rsq (Rdiv (Rsub value d.alpha) d.beta)))))
    [Rgt d.beta (fin 0)]

/-- The Gamma variant: stored parameters and statistics from its
constructor. -/
structure Gamma where
  alpha : R
  beta : R
  mean : R
  median : R
  variance : R

/-- Constructor of Gamma; the median is maximum((alpha - 1) / beta, 0). -/
def Gamma.dist (alpha beta : R) : Gamma :=
  { alpha := alpha, beta := beta, mean := Rdiv alpha beta,
    median := maximum (Rdiv (Rsub alpha (fin 1)) beta) (fin 0),
    variance := Rdiv alpha (Rsq beta) }

/-- Gamma log-density from the source, with the constraints value >= 0,
alpha > 0 and beta > 0. -/
def Gamma.logp (d : Gamma) (value : R) : R :=
  boundS
    (Radd (Rsub (Radd (Rneg (gammaln d.alpha)) (logpow d.beta d.alpha))
                (Rmul d.beta value))
          (logpow value (Rsub d.alpha (fin 1))))
    [Rge value (fin 0), Rgt d.alpha (fin 0), Rgt d.beta (fin 0)]

/-- View of a distribution variant instance as the truncation combinator sees
it: its attribute dictionary, its stored output shape (kept by the external
base class), and its log-density operation. -/
structure Dist where
  attrs : List (String × R)
  shape : List Nat
  logp : R → R

/-- Attribute dictionary of an Exponential instance, in the insertion order
of its constructor. -/
def Exponential.attrs (d : Exponential) : List (String × R) :=
  [("lam", d.lam), ("mean", d.mean), ("median", d.median), ("mode", d.mode),
   ("variance", d.variance)]

/-- An Exponential instance with a stored shape, as a Dist. -/
def Exponential.toDist (shape : List Nat) (d : Exponential) : Dist :=
  { attrs := Exponential.attrs d, shape := shape, logp := Exponential.logp d }

/-- Attribute dictionary of a Beta instance, in the insertion order of its
constructor; Beta stores no mode. -/
def Beta.attrs (d : Beta) : List (String × R) :=
  [("alpha", d.alpha), ("beta", d.beta), ("mean", d.mean),
   ("variance", d.variance)]

/-- A Beta instance with a stored shape, as a Dist. -/
def Beta.toDist (shape : List Nat) (d : Beta) : Dist :=
  { attrs := Beta.attrs d, shape := shape, logp := Beta.logp d }

/-- Attribute dictionary of a Uniform instance, in the insertion order of its
constructor; its parameters are stored under the keys lower and upper. -/
def Uniform.attrs (d : Uniform) : List (String × R) :=
  [("lower", d.lower), ("upper", d.upper), ("mean", d.mean),
   ("median", d.median)]

/-- A Uniform instance with a stored shape, as a Dist. -/
def Uniform.toDist (shape : List Nat) (d : Uniform) : Dist :=
  { attrs := Uniform.attrs d, shape := shape, logp := Uniform.logp d }

/-- A Bounded instance: the owned inner variant, the attribute dictionary
left by its constructor, the copied shape, and the stored lower and upper
limits. -/
structure Bounded where
  dist : Dist
  attrs : List (String × R)
  shape : List Nat
  lower : R
  upper : R

/-- Construction of a Bounded instance, from Bounded.__init__ in the source:
builds the inner variant from the forwarded arguments, copies its attribute
dictionary onto itself, then applies the update with the locals (which writes
the lower and upper limits of the template), and finally copies mode when the
inner variant has one. -/
def Bounded.make {A : Type} (distribution : A → Dist) (lower upper : R)
    (fargs : A) : Bounded :=
  let d := distribution fargs
  let a1 := dictUpdate [] d.attrs
  let a2 := dictUpdate a1 [("lower", lower), ("upper", upper)]
  let a3 :=
    match dictGet d.attrs "mode" with
    | some m => dictUpdate a2 [("mode", m)]
    | none => a2
  { dist := d, attrs := a3, shape := d.shape, lower := lower, upper := upper }

/-- Bounded log-density from the source:
bound(self.dist.logp(value), self.lower <= value, value <= self.upper). -/
def Bounded.logp (b : Bounded) (value : R) : R :=
  boundS (b.dist.logp value) [Rle b.lower value, Rle value b.upper]

/-- A Bound template, from the Bound class of the source: the stored wrapped
variant type (as its dist constructor over its forwarded arguments) and the
stored lower and upper limits. -/
structure Bound (A : Type) where
  distribution : A → Dist
  lower : R
  upper : R

/-- Application of a Bound template, from Bound.__call__ in the source: the
external base strips the variable name from the argument list, and the
remaining forwarded arguments reach the Bounded constructor together with the
stored distribution, lower and upper. -/
def Bound.call {A : Type} (b : Bound A) (fargs : A) : Bounded :=
  Bounded.make b.distribution b.lower b.upper fargs

/-- C2: the Bounded-Elementwise-Selector returns, elementwise over the
broadcast shape, the expression wherever all constraints hold and negative
infinity wherever any constraint fails; with no constraints it returns the
expression unchanged; bound(5.0) is 5.0, and bound(5.0, array([True, False]))
is the array [5.0, -inf]. -/
theorem bound_elementwise :
    (∀ (expr : Nat → R) (cs : List (Nat → Bool)) (i : Nat),
        ((∀ c ∈ cs, c i = true) → bound expr cs i = expr i) ∧
        ((∃ c ∈ cs, c i = false) → bound expr cs i = R.ninf)) ∧
    (∀ expr : Nat → R, bound expr [] = expr) ∧
    ((bound (fun _ => R.fin 5) [] = fun _ => R.fin 5) ∧
     bound (fun _ => R.fin 5) [fun i => decide (i = 0)] 0 = R.fin 5 ∧
     bound (fun _ => R.fin 5) [fun i => decide (i = 0)] 1 = R.ninf) := by
  refine ⟨fun expr cs i => ⟨fun h => ?_, fun h => ?_⟩, fun expr => ?_, ?_, ?_, ?_⟩
  · have hall : (cs.map (fun c => c i)).all (fun c => c) = true := by
      simp only [List.all_eq_true, List.mem_map, forall_exists_index, and_imp]
      rintro b c hc rfl
      exact h c hc
    simp [bound, boundS, hall]
  · obtain ⟨c, hc, hci⟩ := h
    have hall : (cs.map (fun c => c i)).all (fun c => c) = false := by
      simp only [List.all_eq_false, List.mem_map]
      exact ⟨c i, ⟨c, hc, rfl⟩, by simp [hci]⟩
    simp [bound, boundS, hall]
  · funext i
    simp [bound, boundS]
  · funext i
    simp [bound, boundS]
  · simp [bound, boundS]
  · simp [bound, boundS]

/-- C2 witness: the general elementwise statement applied at the constant
expression 5 with a single everywhere-true constraint, at index 0. -/
theorem bound_elementwise_witness :
    bound (fun _ => R.fin 5) [fun _ => true] 0 = R.fin 5 :=
  (bound_elementwise.1 (fun _ => R.fin 5) [fun _ => true] 0).1
    (by intro c hc; simp at hc; simp [hc])

/-- C3: evaluation of draw_values resolution at the failing input.  With a
point mapping the name x to 0.0, the Python or treats the looked-up 0.0 as
falsy and invokes the sampling operation, returning its draw 7 instead of the
mapped 0; with a truthy mapped value the mapped value is used; with no point
at all the sampling operation runs with point None. -/
theorem draw_values_point_zero :
    drawValue (Item.stoch "x" (fun _ => R.fin 7)) (some [("x", R.fin 0)]) = R.fin 7 ∧
    R.fin 7 ≠ R.fin 0 ∧
    drawValue (Item.stoch "x" (fun _ => R.fin 7)) (some [("x", R.fin 2)]) = R.fin 2 ∧
    drawValue (Item.stoch "x" (fun _ => R.fin 7)) none = R.fin 7 ∧
    draw_values [Item.stoch "x" (fun _ => R.fin 7)] (some [("x", R.fin 0)]) =
      [R.fin 7] := by
  refine ⟨?_, ?_, ?_, rfl, ?_⟩
  · norm_num [drawValue, dictGet, falsy]
  · norm_num
  · norm_num [drawValue, dictGet, falsy]
  · norm_num [draw_values, drawValue, dictGet, falsy]

/-- C6: get_tau returns 1 when neither tau nor sd is supplied, the inverse
square of sd when only sd is supplied, tau when only tau is supplied, and the
parameterization-conflict error exactly when both are supplied; Normal
constructed with both raises that error, and Normal constructed with sd = 2
alone stores tau = 1/4. -/
theorem get_tau_resolution :
    (get_tau none none = Except.ok (R.fin 1)) ∧
    (∀ s : ℝ, s ≠ 0 →
        get_tau none (some (R.fin s)) = Except.ok (R.fin ((s ^ 2)⁻¹))) ∧
    (∀ t : R, get_tau (some t) none = Except.ok t) ∧
    (∀ t s : R, get_tau (some t) (some s) =
        Except.error "Can\x27t pass both tau and sd") ∧
    (∀ mu t s : R, Normal.dist mu (some t) (some s) =
        Except.error "Can\x27t pass both tau and sd") ∧
    (∃ n : Normal, Normal.dist (R.fin 0) none (some (R.fin 2)) = Except.ok n ∧
        n.tau = R.fin (1/4)) := by
  refine ⟨rfl, fun s hs => ?_, fun t => rfl, fun t s => rfl, fun mu t s => rfl, ?_⟩
  · have hss : s * s ≠ 0 := mul_ne_zero hs hs
    simp [get_tau, powNeg2, Rsq, Rmul, Rdiv, hss]
    rw [sq, mul_inv]
  · refine ⟨_, rfl, ?_⟩
    show powNeg2 (R.fin 2) = R.fin (1/4)
    norm_num [powNeg2, Rsq, Rmul, Rdiv]

/-- C6 witness: the only-sd rule applied at the concrete value sd = 2. -/
theorem get_tau_resolution_witness :
    get_tau none (some (R.fin 2)) = Except.ok (R.fin (((2 : ℝ) ^ 2)⁻¹)) :=
  get_tau_resolution.2.1 2 (by norm_num)

/-- C7: sampling from Flat returns the unsupported-operation error whatever
the point argument, and never returns a value. -/
theorem flat_random_unsupported :
    (∀ (f : Flat) (point : Option Point),
        Flat.random f point = Except.error "Cannot sample from Flat.") ∧
    (∀ (f : Flat) (point : Option Point) (v : R),
        Flat.random f point ≠ Except.ok v) :=
  ⟨fun _ _ => rfl, fun _ _ _ h => Except.noConfusion h⟩

/-- C8: the cited sampling operations do not return a draw at all: Laplace
random raises a NameError on the undefined name size, and T random raises an
AttributeError reading the absent attribute tau, so neither ever returns a
value of the stored output shape. -/
theorem laplace_t_random_raise :
    (∀ (d : Laplace) (point : Option Point),
        Laplace.random d point =
          Except.error "NameError: name \x27size\x27 is not defined" ∧
        ∀ v : R, Laplace.random d point ≠ Except.ok v) ∧
    (∀ (d : T) (point : Option Point),
        T.random d point =
          Except.error "AttributeError: \x27T\x27 object has no attribute \x27tau\x27" ∧
        ∀ v : R, T.random d point ≠ Except.ok v) :=
  ⟨fun _ _ => ⟨rfl, fun _ h => Except.noConfusion h⟩,
   fun _ _ => ⟨rfl, fun _ h => Except.noConfusion h⟩⟩

/-- C9: the stored Gamma median is maximum((alpha - 1)/beta, 0): for finite
parameters with beta nonzero it is the real max of (alpha - 1)/beta and 0, it
is clamped to 0 whenever (alpha - 1)/beta is negative, and at alpha = 1/2,
beta = 1 it is 0 and not -1/2. -/
theorem gamma_median_clamped :
    (∀ a b : ℝ, b ≠ 0 →
        (Gamma.dist (R.fin a) (R.fin b)).median = R.fin (max ((a - 1) / b) 0)) ∧
    (∀ a b : ℝ, b ≠ 0 → (a - 1) / b < 0 →
        (Gamma.dist (R.fin a) (R.fin b)).median = R.fin 0) ∧
    (Gamma.dist (R.fin (1/2)) (R.fin 1)).median = R.fin 0 := by
  have key : ∀ a b : ℝ, b ≠ 0 →
      (Gamma.dist (R.fin a) (R.fin b)).median = R.fin (max ((a - 1) / b) 0) := by
    intro a b hb
    simp [Gamma.dist, maximum, Rdiv, Rsub, Radd, Rneg, hb]
    ring_nf
  refine ⟨key, fun a b hb h => ?_, ?_⟩
  · rw [key a b hb, max_eq_right h.le]
  · rw [key (1/2) 1 one_ne_zero, max_eq_right (by norm_num)]

/-- C9 witness: the general statement applied at alpha = 2, beta = 1, where
no clamping occurs. -/
theorem gamma_median_clamped_witness :
    (Gamma.dist (R.fin 2) (R.fin 1)).median = R.fin (max (((2 : ℝ) - 1) / 1) 0) :=
  gamma_median_clamped.1 2 1 (by norm_num)

/-- C1 counterexample: Lognormal with mu 0 and tau 1, evaluated at the value
-1 outside its declared support x > 0, yields NaN and not negative
infinity. -/
theorem lognormal_outside_support_nan_cex :
    (Lognormal.dist (R.fin 0) (R.fin 1)).logp (R.fin (-1)) = R.nan ∧
    R.nan ≠ R.ninf := by
  constructor
  · have hlog : log (R.fin (-1)) = R.nan := by norm_num [log]
    norm_num [Lognormal.dist, Lognormal.logp, boundS, hlog, Rgt, Rlt, Rsq,
      Rsub, Radd, Rneg, Rmul]
  · intro h
    exact R.noConfusion h

/-- C1 amended: for Uniform, Beta, Exponential and Gamma, the variants whose
declared value-support constraints are passed to bound, the log-density at
any value outside the declared support is negative infinity for arbitrary
parameter values (the Uniform example evaluates to 0 inside its support);
for Lognormal the declared support x > 0 is only implicit through log, and
at any value x <= 0 with finite tau > 0 the log-density is NaN rather than
negative infinity. -/
theorem logp_outside_support :
    (∀ (d : Uniform) (lo hi x : ℝ), d.lower = R.fin lo → d.upper = R.fin hi →
        ¬(lo ≤ x ∧ x ≤ hi) → d.logp (R.fin x) = R.ninf) ∧
    (∀ (d : Beta) (x : ℝ), ¬(0 ≤ x ∧ x ≤ 1) → d.logp (R.fin x) = R.ninf) ∧
    (∀ (d : Exponential) (x : ℝ), x ≤ 0 → d.logp (R.fin x) = R.ninf) ∧
    (∀ (d : Gamma) (x : ℝ), x < 0 → d.logp (R.fin x) = R.ninf) ∧
    ((Uniform.dist (R.fin 0) (R.fin 1)).logp (R.fin (1/2)) = R.fin 0) ∧
    (∀ (d : Lognormal) (m t x : ℝ), d.mu = R.fin m → d.tau = R.fin t →
        0 < t → x ≤ 0 → d.logp (R.fin x) = R.nan) := by
  refine ⟨?_, ?_, ?_, ?_, ?_, ?_⟩
  · intro d lo hi x hlo hhi h
    rcases not_and_or.mp h with h1 | h1
    · simp [Uniform.logp, boundS, hlo, hhi, Rle, h1]
    · simp [Uniform.logp, boundS, hlo, hhi, Rle, h1]
  · intro d x h
    rcases not_and_or.mp h with h1 | h1
    · simp [Beta.logp, boundS, Rle, h1]
    · simp [Beta.logp, boundS, Rle, h1]
  · intro d x h
    simp [Exponential.logp, boundS, Rgt, Rlt, not_lt.mpr h]
  · intro d x h
    simp [Gamma.logp, boundS, Rge, Rle, not_le.mpr h]
  · norm_num [Uniform.dist, Uniform.logp, boundS, Rsub, Radd, Rneg, Rle, log,
      Real.log_one]
  · intro d m t x hm ht htpos hx
    have hcon : Rgt (R.fin t) (R.fin 0) = true := by
      simp [Rgt, Rlt, htpos]
    rcases lt_or_eq_of_le hx with hneg | hzero
    · have hlog : log (R.fin x) = R.nan := by
        simp [log, not_lt.mpr hneg.le, hneg.ne]
      simp [Lognormal.logp, boundS, hcon, hm, ht, hlog, Rsq, Rsub, Radd,
        Rneg, Rmul]
    · subst hzero
      have hpi : (2 : ℝ) * Real.pi ≠ 0 := by positivity
      have hquot : 0 < t / (2 * Real.pi) := div_pos htpos (by positivity)
      have hhalf : (-(1/2) : ℝ) * t < 0 := by linarith
      have e1 : log (R.fin (0 : ℝ)) = R.ninf := by norm_num [log]
      have e2 : Rsub R.ninf (R.fin m) = R.ninf := rfl
      have e3 : Rsq R.ninf = R.pinf := rfl
      have e4 : Rmul (R.fin (-(1/2))) (R.fin t) = R.fin (-(1/2) * t) := rfl
      have e5 : Rmul (R.fin (-(1/2) * t)) R.pinf = R.ninf := by
        simp only [Rmul, if_neg (asymm hhalf), if_pos hhalf]
      have e6 : Rmul (R.fin 2) pi = R.fin (2 * Real.pi) := rfl
      have e7 : Rdiv (R.fin t) (R.fin (2 * Real.pi)) =
          R.fin (t / (2 * Real.pi)) := by
        simp [Rdiv, hpi]
      have e8 : log (R.fin (t / (2 * Real.pi))) =
          R.fin (Real.log (t / (2 * Real.pi))) := by
        simp [log, hquot]
      have e9 : Rmul (R.fin (1/2)) (R.fin (Real.log (t / (2 * Real.pi)))) =
          R.fin ((1/2) * Real.log (t / (2 * Real.pi))) := rfl
      have e10 : Radd R.ninf (R.fin ((1/2) * Real.log (t / (2 * Real.pi)))) =
          R.ninf := rfl
      have e11 : Rsub R.ninf R.ninf = R.nan := rfl
      simp only [Lognormal.logp, hm, ht, e1, e2, e3, e4, e5, e6, e7, e8, e9,
        e10, e11, boundS, hcon, List.all_cons, List.all_nil, Bool.and_true,
        if_true]

/-- C1 witness: the Uniform clause applied outside the support, at the
distribution with lower 0 and upper 1 evaluated at the value 2. -/
theorem logp_outside_support_witness :
    (Uniform.dist (R.fin 0) (R.fin 1)).logp (R.fin 2) = R.ninf :=
  logp_outside_support.1 (Uniform.dist (R.fin 0) (R.fin 1)) 0 1 2 rfl rfl
    (by norm_num)

/-- C10: Laplace log-density applies no constraint: with a positive finite
scale it evaluates the formula -log(2 b) - abs(x - mu)/b directly, and with a
non-positive finite scale it is NaN at every value.  Every other variant with
a declared parameter constraint (Normal, Lognormal, Exponential, Beta, T,
Cauchy, Gamma) returns the negative-infinity sentinel, never NaN, whenever
that parameter constraint is violated, and a Uniform whose limits are in the
wrong order also returns negative infinity at every value. -/
theorem laplace_logp_nan :
    (∀ (d : Laplace) (m bb x : ℝ), d.mu = R.fin m → d.b = R.fin bb → 0 < bb →
        d.logp (R.fin x) = R.fin (-Real.log (2 * bb) - |x - m| / bb)) ∧
    (∀ (d : Laplace) (m bb x : ℝ), d.mu = R.fin m → d.b = R.fin bb → bb ≤ 0 →
        d.logp (R.fin x) = R.nan) ∧
    (∀ (d : Normal) (t : ℝ), d.tau = R.fin t → t ≤ 0 →
        ∀ v, d.logp v = R.ninf) ∧
    (∀ (d : Lognormal) (t : ℝ), d.tau = R.fin t → t ≤ 0 →
        ∀ v, d.logp v = R.ninf) ∧
    (∀ (d : Exponential) (l : ℝ), d.lam = R.fin l → l ≤ 0 →
        ∀ v, d.logp v = R.ninf) ∧
    (∀ (d : Beta) (a : ℝ), d.alpha = R.fin a → a ≤ 0 →
        ∀ v, d.logp v = R.ninf) ∧
    (∀ (d : Beta) (bb : ℝ), d.beta = R.fin bb → bb ≤ 0 →
        ∀ v, d.logp v = R.ninf) ∧
    (∀ (d : T) (l : ℝ), d.lam = R.fin l → l ≤ 0 →
        ∀ v, d.logp v = R.ninf) ∧
    (∀ (d : T) (n : ℝ), d.nu = R.fin n → n ≤ 0 →
        ∀ v, d.logp v = R.ninf) ∧
    (∀ (d : Cauchy) (bb : ℝ), d.beta = R.fin bb → bb ≤ 0 →
        ∀ v, d.logp v = R.ninf) ∧
    (∀ (d : Gamma) (a : ℝ), d.alpha = R.fin a → a ≤ 0 →
        ∀ v, d.logp v = R.ninf) ∧
    (∀ (d : Gamma) (bb : ℝ), d.beta = R.fin bb → bb ≤ 0 →
        ∀ v, d.logp v = R.ninf) ∧
    (∀ (d : Uniform) (lo hi : ℝ), d.lower = R.fin lo → d.upper = R.fin hi →
        hi < lo → ∀ v, d.logp v = R.ninf) := by
  refine ⟨?_, ?_, ?_, ?_, ?_, ?_, ?_, ?_, ?_, ?_, ?_, ?_, ?_⟩
  · intro d m bb x hm hb hbpos
    have h2b : (0 : ℝ) < 2 * bb := by linarith
    have hbne : bb ≠ 0 := ne_of_gt hbpos
    have e1 : log (Rmul (R.fin 2) (R.fin bb)) = R.fin (Real.log (2 * bb)) := by
      simp [Rmul, log, h2b]
    have e2 : Rsub (R.fin x) (R.fin m) = R.fin (x + -m) := rfl
    have e3 : Rabs (R.fin (x + -m)) = R.fin |x + -m| := rfl
    have e4 : Rdiv (R.fin |x + -m|) (R.fin bb) = R.fin (|x + -m| / bb) := by
      simp [Rdiv, hbne]
    simp only [Laplace.logp, hm, hb, e1, e2, e3, e4, Rneg, Rsub, Radd]
    rw [sub_eq_add_neg x m, sub_eq_add_neg]
  · intro d m bb x hm hb hble
    rcases lt_or_eq_of_le hble with hneg | hzero
    · have h2b : (2 : ℝ) * bb < 0 := by linarith
      have e1 : log (Rmul (R.fin 2) (R.fin bb)) = R.nan := by
        simp [Rmul, log, not_lt.mpr h2b.le, h2b.ne]
      simp [Laplace.logp, hm, hb, e1, Rneg, Rsub, Radd]
    · subst hzero
      have e1 : log (Rmul (R.fin 2) (R.fin (0 : ℝ))) = R.ninf := by
        norm_num [Rmul, log]
      have e2 : Rsub (R.fin x) (R.fin m) = R.fin (x + -m) := rfl
      have e3 : Rabs (R.fin (x + -m)) = R.fin |x + -m| := rfl
      by_cases hxm : x + -m = 0
      · have e4 : Rdiv (R.fin |x + -m|) (R.fin (0 : ℝ)) = R.nan := by
          simp [Rdiv, abs_eq_zero, hxm]
        simp [Laplace.logp, hm, hb, e1, e2, e3, e4, Rneg, Rsub, Radd]
      · have habs : 0 < |x + -m| := abs_pos.mpr hxm
        have e4 : Rdiv (R.fin |x + -m|) (R.fin (0 : ℝ)) = R.pinf := by
          simp [Rdiv, abs_eq_zero, hxm, habs]
        simp [Laplace.logp, hm, hb, e1, e2, e3, e4, Rneg, Rsub, Radd]
  · intro d t ht hle v
    simp [Normal.logp, boundS, ht, Rgt, Rlt, not_lt.mpr hle]
  · intro d t ht hle v
    simp [Lognormal.logp, boundS, ht, Rgt, Rlt, not_lt.mpr hle]
  · intro d l hl hle v
    simp [Exponential.logp, boundS, hl, Rgt, Rlt, not_lt.mpr hle]
  · intro d a ha hle v
    simp [Beta.logp, boundS, ha, Rgt, Rlt, not_lt.mpr hle]
  · intro d bb hb hle v
    simp [Beta.logp, boundS, hb, Rgt, Rlt, not_lt.mpr hle]
  · intro d l hl hle v
    simp [T.logp, boundS, hl, Rgt, Rlt, not_lt.mpr hle]
  · intro d n hn hle v
    simp [T.logp, boundS, hn, Rgt, Rlt, not_lt.mpr hle]
  · intro d bb hb hle v
    simp [Cauchy.logp, boundS, hb, Rgt, Rlt, not_lt.mpr hle]
  · intro d a ha hle v
    simp [Gamma.logp, boundS, ha, Rgt, Rlt, not_lt.mpr hle]
  · intro d bb hb hle v
    simp [Gamma.logp, boundS, hb, Rgt, Rlt, not_lt.mpr hle]
  · intro d lo hi hlo hhi hlt v
    cases v with
    | fin x =>
      by_cases hx : lo ≤ x
      · have hxh : ¬(x ≤ hi) := by intro hxh; linarith
        simp [Uniform.logp, boundS, hlo, hhi, Rle, hxh]
      · simp [Uniform.logp, boundS, hlo, hhi, Rle, hx]
    | pinf => simp [Uniform.logp, boundS, hlo, hhi, Rle]
    | ninf => simp [Uniform.logp, boundS, hlo, hhi, Rle]
    | nan => simp [Uniform.logp, boundS, hlo, hhi, Rle]

/-- C10 witness: the non-positive-scale clause applied at the Laplace
instance with mu 0 and b -1, at the value 0. -/
theorem laplace_logp_nan_witness :
    (Laplace.dist (R.fin 0) (R.fin (-1))).logp (R.fin 0) = R.nan :=
  laplace_logp_nan.2.1 (Laplace.dist (R.fin 0) (R.fin (-1))) 0 (-1) 0 rfl rfl
    (by norm_num)

/-- C4: a Bounded instance with finite limits lower and upper agrees with the
log-density of its inner variant at every value inside the limits and is
negative infinity outside them, with no renormalization; in particular the
Bound(Exponential, lower = 1) instance with lam = 1 has log-density negative
infinity at 0.5 and exactly the untruncated Exponential log-density at 2. -/
theorem bounded_logp_truncation :
    (∀ (D : Dist) (lo hi x : ℝ),
        ((lo ≤ x ∧ x ≤ hi) →
          (Bounded.make (fun _ : Unit => D) (R.fin lo) (R.fin hi) ()).logp
              (R.fin x) = D.logp (R.fin x)) ∧
        (¬(lo ≤ x ∧ x ≤ hi) →
          (Bounded.make (fun _ : Unit => D) (R.fin lo) (R.fin hi) ()).logp
              (R.fin x) = R.ninf)) ∧
    ((Bound.call
        { distribution := fun lam => Exponential.toDist [] (Exponential.dist lam),
          lower := R.fin 1, upper := inf } (R.fin 1)).logp (R.fin (1/2))
      = R.ninf) ∧
    ((Bound.call
        { distribution := fun lam => Exponential.toDist [] (Exponential.dist lam),
          lower := R.fin 1, upper := inf } (R.fin 1)).logp (R.fin 2)
      = (Exponential.dist (R.fin 1)).logp (R.fin 2)) := by
  refine ⟨fun D lo hi x => ⟨fun h => ?_, fun h => ?_⟩, ?_, ?_⟩
  · simp [Bounded.make, Bounded.logp, boundS, Rle, h.1, h.2]
  · rcases not_and_or.mp h with h1 | h1
    · simp [Bounded.make, Bounded.logp, boundS, Rle, h1]
    · simp [Bounded.make, Bounded.logp, boundS, Rle, h1]
  · norm_num [Bound.call, Bounded.make, Bounded.logp, boundS, Rle, inf,
      Exponential.toDist]
  · norm_num [Bound.call, Bounded.make, Bounded.logp, boundS, Rle, inf,
      Exponential.toDist]

/-- C4 witness: the general clause applied to the Exponential(1) variant
bounded to [0, 3], at the in-range value 2, where the Bounded log-density
equals the inner log-density. -/
theorem bounded_logp_truncation_witness :
    (Bounded.make (fun _ : Unit => Exponential.toDist [] (Exponential.dist (R.fin 1)))
        (R.fin 0) (R.fin 3) ()).logp (R.fin 2)
      = (Exponential.toDist [] (Exponential.dist (R.fin 1))).logp (R.fin 2) :=
  (bounded_logp_truncation.1
      (Exponential.toDist [] (Exponential.dist (R.fin 1))) 0 3 2).1
    ⟨by norm_num, by norm_num⟩

/-- Helper: looking a key up after a single dictionary set returns the newly
set value at that key and is unchanged at every other key. -/
theorem dictGet_dictSet (d : List (String × R)) (k1 k : String) (v : R) :
    dictGet (dictSet d k1 v) k = if k1 = k then some v else dictGet d k := by
  induction d with
  | nil => simp [dictSet, dictGet]
  | cons hd tl ih =>
    obtain ⟨a, b⟩ := hd
    by_cases h1 : a = k1
    · by_cases h2 : k1 = k
      · simp [dictSet, dictGet, h1, h2]
      · have hak : ¬(a = k) := by rw [h1]; exact h2
        simp [dictSet, dictGet, h1, h2, hak]
    · by_cases h2 : a = k
      · have hkk1 : ¬(k = k1) := fun hh => h1 (h2.trans hh)
        have hk1k : ¬(k1 = k) := fun hh => hkk1 hh.symm
        simp [dictSet, dictGet, h1, h2, hk1k, hkk1]
      · simp [dictSet, dictGet, h1, h2, ih]

/-- Helper: a key that occurs nowhere in a dictionary looks up to none. -/
theorem dictGet_eq_none_of_not_mem (kvs : List (String × R)) (k : String)
    (h : k ∉ kvs.map Prod.fst) : dictGet kvs k = none := by
  induction kvs with
  | nil => rfl
  | cons hd tl ih =>
    obtain ⟨a, b⟩ := hd
    simp only [List.map_cons, List.mem_cons] at h
    push_neg at h
    have hak : ¬(a = k) := fun hh => h.1 hh.symm
    simp [dictGet, hak, ih h.2]

/-- Helper: updating with bindings that do not contain a key leaves that key
unchanged. -/
theorem dictGet_dictUpdate_none (kvs : List (String × R)) :
    ∀ (acc : List (String × R)) (k : String), dictGet kvs k = none →
      dictGet (dictUpdate acc kvs) k = dictGet acc k := by
  induction kvs with
  | nil => intro acc k _; rfl
  | cons hd tl ih =>
    intro acc k h
    obtain ⟨a, b⟩ := hd
    by_cases hak : a = k
    · simp [dictGet, hak] at h
    · have htl : dictGet tl k = none := by simpa [dictGet, hak] using h
      show dictGet (dictUpdate (dictSet acc a b) tl) k = dictGet acc k
      rw [ih _ _ htl, dictGet_dictSet, if_neg hak]

/-- Helper: updating with bindings whose keys are distinct installs each
bound value at its key. -/
theorem dictGet_dictUpdate_some (kvs : List (String × R)) :
    ∀ (acc : List (String × R)) (k : String) (v : R),
      (kvs.map Prod.fst).Nodup → dictGet kvs k = some v →
      dictGet (dictUpdate acc kvs) k = some v := by
  induction kvs with
  | nil => intro acc k v _ h; simp [dictGet] at h
  | cons hd tl ih =>
    intro acc k v hnd h
    obtain ⟨a, b⟩ := hd
    simp only [List.map_cons, List.nodup_cons] at hnd
    by_cases hak : a = k
    · have hbv : b = v := by simpa [dictGet, hak] using h
      have htlnone : dictGet tl k = none :=
        dictGet_eq_none_of_not_mem tl k (hak ▸ hnd.1)
      show dictGet (dictUpdate (dictSet acc a b) tl) k = some v
      rw [dictGet_dictUpdate_none tl _ k htlnone, dictGet_dictSet, if_pos hak,
        hbv]
    · have h2 : dictGet tl k = some v := by simpa [dictGet, hak] using h
      show dictGet (dictUpdate (dictSet acc a b) tl) k = some v
      exact ih _ _ _ hnd.2 h2

/-- Helper: the attribute dictionary assembled by the Bounded constructor,
written as explicit sets over the copy of the inner dictionary: the inner
attributes are copied first, then lower and upper are written from the
locals, then mode is re-set when the inner variant has one. -/
theorem bounded_make_attrs_eq {A : Type} (distribution : A → Dist)
    (lo hi : R) (fargs : A) :
    (Bounded.make distribution lo hi fargs).attrs =
      (match dictGet (distribution fargs).attrs "mode" with
       | some m =>
           dictSet (dictSet (dictSet (dictUpdate [] (distribution fargs).attrs)
             "lower" lo) "upper" hi) "mode" m
       | none =>
           dictSet (dictSet (dictUpdate [] (distribution fargs).attrs)
             "lower" lo) "upper" hi) := rfl

/-- Helper: one lookup into the attribute dictionary of a constructed
Bounded instance, for an arbitrary key. -/
theorem bounded_make_get {A : Type} (distribution : A → Dist) (lo hi : R)
    (fargs : A) (k : String) :
    dictGet (Bounded.make distribution lo hi fargs).attrs k =
      (match dictGet (distribution fargs).attrs "mode" with
       | some m =>
           if "mode" = k then some m
           else if "upper" = k then some hi
           else if "lower" = k then some lo
           else dictGet (dictUpdate [] (distribution fargs).attrs) k
       | none =>
           if "upper" = k then some hi
           else if "lower" = k then some lo
           else dictGet (dictUpdate [] (distribution fargs).attrs) k) := by
  rw [bounded_make_attrs_eq]
  cases hm : dictGet (distribution fargs).attrs "mode" with
  | none =>
    dsimp only
    rw [dictGet_dictSet, dictGet_dictSet]
  | some m =>
    dsimp only
    rw [dictGet_dictSet, dictGet_dictSet, dictGet_dictSet]

/-- C5 counterexample: Bound(Uniform, lower = 2, upper = 3) applied to the
inner Uniform(0, 1): the locals update of the Bounded constructor overwrites
the copied inner parameter lower = 0 with the template limit 2, so the
produced instance does not carry the inner variant's parameters. -/
theorem bound_factory_uniform_clobber_cex :
    dictGet (Bound.call
        { distribution := fun p : R × R × List Nat =>
            Uniform.toDist p.2.2 (Uniform.dist p.1 p.2.1),
          lower := R.fin 2, upper := R.fin 3 }
        (R.fin 0, R.fin 1, [])).attrs "lower" = some (R.fin 2) ∧
    (Uniform.dist (R.fin 0) (R.fin 1)).lower = R.fin 0 ∧
    R.fin 2 ≠ R.fin 0 := by
  refine ⟨rfl, rfl, fun h => ?_⟩
  have h2 : (2 : ℝ) = 0 := R.fin.inj h
  norm_num at h2

/-- C5 amended: applying a Bound template with stored limits lo and hi to
forwarded constructor arguments produces a Bounded instance whose inner
variant is the wrapped variant constructed with the forwarded arguments,
whose lower and upper limits are the template's stored ones, which copies
the mode of the inner variant exactly when it has one, and which copies
every inner attribute (parameters, shape, summary statistics) whose name is
not lower or upper; an inner attribute named lower or upper, as the
parameters of Uniform are, is instead overwritten by the template limits,
because the locals update of the constructor runs after the copy.  The
generic clauses are instantiated at Exponential (mode copied), Beta (no
mode) and Uniform (parameter overwritten). -/
theorem bound_factory_copies :
    (∀ (A : Type) (distribution : A → Dist) (lo hi : R) (fargs : A),
        (Bound.call { distribution := distribution, lower := lo, upper := hi }
            fargs).dist = distribution fargs ∧
        (Bound.call { distribution := distribution, lower := lo, upper := hi }
            fargs).lower = lo ∧
        (Bound.call { distribution := distribution, lower := lo, upper := hi }
            fargs).upper = hi ∧
        (Bound.call { distribution := distribution, lower := lo, upper := hi }
            fargs).shape = (distribution fargs).shape ∧
        dictGet (Bound.call
          { distribution := distribution, lower := lo, upper := hi }
          fargs).attrs "lower" = some lo ∧
        dictGet (Bound.call
          { distribution := distribution, lower := lo, upper := hi }
          fargs).attrs "upper" = some hi) ∧
    (∀ (A : Type) (distribution : A → Dist) (lo hi : R) (fargs : A) (m : R),
        dictGet (distribution fargs).attrs "mode" = some m →
        dictGet (Bound.call
          { distribution := distribution, lower := lo, upper := hi }
          fargs).attrs "mode" = some m) ∧
    (∀ (A : Type) (distribution : A → Dist) (lo hi : R) (fargs : A)
        (k : String),
        ((distribution fargs).attrs.map Prod.fst).Nodup →
        k ≠ "lower" → k ≠ "upper" →
        (dictGet (distribution fargs).attrs "mode" = none ∨ k ≠ "mode") →
        dictGet (Bound.call
          { distribution := distribution, lower := lo, upper := hi }
          fargs).attrs k = dictGet (distribution fargs).attrs k) ∧
    (∀ (lam lo hi : R) (shape : List Nat),
      (Bound.call
          { distribution := fun p : R × List Nat =>
              Exponential.toDist p.2 (Exponential.dist p.1),
            lower := lo, upper := hi } (lam, shape)).dist
        = Exponential.toDist shape (Exponential.dist lam) ∧
       (Bound.call
          { distribution := fun p : R × List Nat =>
              Exponential.toDist p.2 (Exponential.dist p.1),
            lower := lo, upper := hi } (lam, shape)).lower = lo ∧
       (Bound.call
          { distribution := fun p : R × List Nat =>
              Exponential.toDist p.2 (Exponential.dist p.1),
            lower := lo, upper := hi } (lam, shape)).upper = hi ∧
       (Bound.call
          { distribution := fun p : R × List Nat =>
              Exponential.toDist p.2 (Exponential.dist p.1),
            lower := lo, upper := hi } (lam, shape)).shape = shape ∧
       dictGet (Bound.call
          { distribution := fun p : R × List Nat =>
              Exponential.toDist p.2 (Exponential.dist p.1),
            lower := lo, upper := hi } (lam, shape)).attrs "lam" = some lam ∧
       dictGet (Bound.call
          { distribution := fun p : R × List Nat =>
              Exponential.toDist p.2 (Exponential.dist p.1),
            lower := lo, upper := hi } (lam, shape)).attrs "mean"
        = some (Rdiv (R.fin 1) lam) ∧
       dictGet (Bound.call
          { distribution := fun p : R × List Nat =>
              Exponential.toDist p.2 (Exponential.dist p.1),
            lower := lo, upper := hi } (lam, shape)).attrs "median"
        = some (Rmul (Rdiv (R.fin 1) lam) (log (R.fin 2))) ∧
       dictGet (Bound.call
          { distribution := fun p : R × List Nat =>
              Exponential.toDist p.2 (Exponential.dist p.1),
            lower := lo, upper := hi } (lam, shape)).attrs "variance"
        = some (powNeg2 lam) ∧
       dictGet (Bound.call
          { distribution := fun p : R × List Nat =>
              Exponential.toDist p.2 (Exponential.dist p.1),
            lower := lo, upper := hi } (lam, shape)).attrs "mode"
        = some (R.fin 0) ∧
       dictGet (Bound.call
          { distribution := fun p : R × List Nat =>
              Exponential.toDist p.2 (Exponential.dist p.1),
            lower := lo, upper := hi } (lam, shape)).attrs "lower" = some lo ∧
       dictGet (Bound.call
          { distribution := fun p : R × List Nat =>
              Exponential.toDist p.2 (Exponential.dist p.1),
            lower := lo, upper := hi } (lam, shape)).attrs "upper" = some hi) ∧
    (∀ (a bb lo hi : R) (shape2 : List Nat),
      (Bound.call
          { distribution := fun p : R × R × List Nat =>
              Beta.toDist p.2.2 (Beta.dist p.1 p.2.1),
            lower := lo, upper := hi } (a, bb, shape2)).dist
        = Beta.toDist shape2 (Beta.dist a bb) ∧
       (Bound.call
          { distribution := fun p : R × R × List Nat =>
              Beta.toDist p.2.2 (Beta.dist p.1 p.2.1),
            lower := lo, upper := hi } (a, bb, shape2)).shape = shape2 ∧
       dictGet (Bound.call
          { distribution := fun p : R × R × List Nat =>
              Beta.toDist p.2.2 (Beta.dist p.1 p.2.1),
            lower := lo, upper := hi } (a, bb, shape2)).attrs "alpha"
        = some a ∧
       dictGet (Bound.call
          { distribution := fun p : R × R × List Nat =>
              Beta.toDist p.2.2 (Beta.dist p.1 p.2.1),
            lower := lo, upper := hi } (a, bb, shape2)).attrs "mean"
        = some (Rdiv a (Radd a bb)) ∧
       dictGet (Bound.call
          { distribution := fun p : R × R × List Nat =>
              Beta.toDist p.2.2 (Beta.dist p.1 p.2.1),
            lower := lo, upper := hi } (a, bb, shape2)).attrs "mode"
        = none) ∧
    (∀ lo hi : R,
       dictGet (Bound.call
          { distribution := fun p : R × R × List Nat =>
              Uniform.toDist p.2.2 (Uniform.dist p.1 p.2.1),
            lower := lo, upper := hi } (R.fin 0, R.fin 1, [])).attrs "lower"
        = some lo ∧
       dictGet (Bound.call
          { distribution := fun p : R × R × List Nat =>
              Uniform.toDist p.2.2 (Uniform.dist p.1 p.2.1),
            lower := lo, upper := hi } (R.fin 0, R.fin 1, [])).attrs "upper"
        = some hi ∧
       dictGet (Bound.call
          { distribution := fun p : R × R × List Nat =>
              Uniform.toDist p.2.2 (Uniform.dist p.1 p.2.1),
            lower := lo, upper := hi } (R.fin 0, R.fin 1, [])).attrs "mean"
        = some (Rdiv (Radd (R.fin 1) (R.fin 0)) (R.fin 2))) := by
  have hml : ¬(("mode" : String) = "lower") := by decide
  have hmu : ¬(("mode" : String) = "upper") := by decide
  have hul : ¬(("upper" : String) = "lower") := by decide
  refine ⟨?_, ?_, ?_, ?_, ?_, ?_⟩
  · intro A distribution lo hi fargs
    refine ⟨rfl, rfl, rfl, rfl, ?_, ?_⟩
    · show dictGet (Bounded.make distribution lo hi fargs).attrs "lower"
        = some lo
      rw [bounded_make_get]
      cases hm : dictGet (distribution fargs).attrs "mode" with
      | none => simp [hul]
      | some m => simp [hml, hul]
    · show dictGet (Bounded.make distribution lo hi fargs).attrs "upper"
        = some hi
      rw [bounded_make_get]
      cases hm : dictGet (distribution fargs).attrs "mode" with
      | none => simp
      | some m => simp [hmu]
  · intro A distribution lo hi fargs m hm
    show dictGet (Bounded.make distribution lo hi fargs).attrs "mode" = some m
    rw [bounded_make_get, hm]
    simp
  · intro A distribution lo hi fargs k hnd hkl hku hkm
    have hl2 : ¬(("lower" : String) = k) := fun h => hkl h.symm
    have hu2 : ¬(("upper" : String) = k) := fun h => hku h.symm
    have hcopy : dictGet (dictUpdate [] (distribution fargs).attrs) k
        = dictGet (distribution fargs).attrs k := by
      cases hv : dictGet (distribution fargs).attrs k with
      | some v => exact dictGet_dictUpdate_some _ _ _ _ hnd hv
      | none => rw [dictGet_dictUpdate_none _ _ _ hv]; rfl
    show dictGet (Bounded.make distribution lo hi fargs).attrs k
        = dictGet (distribution fargs).attrs k
    rw [bounded_make_get]
    cases hm : dictGet (distribution fargs).attrs "mode" with
    | none => simp [hl2, hu2, hcopy]
    | some m =>
      have hkm2 : ¬(("mode" : String) = k) := by
        rcases hkm with hnone | hne
        · rw [hm] at hnone
          simp at hnone
        · exact fun h => hne h.symm
      simp [hkm2, hl2, hu2, hcopy]
  · intro lam lo hi shape
    exact ⟨rfl, rfl, rfl, rfl, rfl, rfl, rfl, rfl, rfl, rfl, rfl⟩
  · intro a bb lo hi shape2
    exact ⟨rfl, rfl, rfl, rfl, rfl⟩
  · intro lo hi
    exact ⟨rfl, rfl, rfl⟩

/-- C5 witness: the generic attribute-copy clause applied to the Uniform(0,1)
inner variant under the template limits 2 and 3, at the copied key mean. -/
theorem bound_factory_copies_witness :
    dictGet (Bound.call
        { distribution := fun p : R × R × List Nat =>
            Uniform.toDist p.2.2 (Uniform.dist p.1 p.2.1),
          lower := R.fin 2, upper := R.fin 3 }
        (R.fin 0, R.fin 1, [])).attrs "mean"
      = dictGet (Uniform.toDist [] (Uniform.dist (R.fin 0) (R.fin 1))).attrs
          "mean" :=
  bound_factory_copies.2.2.1 (R × R × List Nat)
    (fun p => Uniform.toDist p.2.2 (Uniform.dist p.1 p.2.1))
    (R.fin 2) (R.fin 3) (R.fin 0, R.fin 1, []) "mean"
    (by decide) (by decide) (by decide) (Or.inr (by decide))

end

end PyMC
